import Mathlib

/-!
Verification of the Cursemap service core (`src/main.rs`): the row codec,
the mirror store with transactional replace, the TTL-gated refresh
coordinator, the query bridge and its error classification, the lock
discipline of `perform_query`, upstream JSON decoding, and port parsing.

Machine integers are modelled as `Nat`/`Int`; SQLite/rusqlite transaction
semantics (rollback-on-drop, isolation) are encoded as primitives of the
transaction runner; the stdlib's lossy UTF-8 decoder and the `Display`
rendering of `f64` are passed in as parameters, since they are library
code outside the repository.
-/

namespace Cursemap

/-- An `f64` as the codec observes it: whether it is finite (this is the
exact condition under which `serde_json::Number::from_f64` returns `Some`)
and its default `Display` rendering (`format!("{}", f)`). -/
structure F64 where
  isFinite : Bool
  render : String
deriving DecidableEq, Repr

/-- JSON values as built by the service (`serde_json::Value`). Numbers are
either integers (`Number::from(i64)`) or floats (`Number::from_f64`). -/
inductive Json where
  | null : Json
  | str : String → Json
  | numInt : Int → Json
  | numFloat : F64 → Json
  | arr : List Json → Json
  | obj : List (String × Json) → Json
deriving Repr

/-- A SQLite cell value (`rusqlite::types::ValueRef`). Blob and text carry
raw bytes (each `< 256` for values arising from the database). -/
inductive SqlValue where
  | blob : List Nat → SqlValue
  | real : F64 → SqlValue
  | integer : Int → SqlValue
  | text : List Nat → SqlValue
  | null : SqlValue
deriving Repr

/-- `write!(buf, "{:02x}", b)` for a byte `b`: exactly two lowercase hex
digits (for `b < 256`, the high digit is `b / 16` and the low is `b % 16`). -/
def hexByte (b : Nat) : String :=
  String.mk [Nat.digitChar (b / 16), Nat.digitChar (b % 16)]

/-- The blob branch of the codec: concatenate `{:02x}` for each byte into
an initially empty buffer, with no separators. -/
def hexEncode (bs : List Nat) : String :=
  bs.foldl (fun acc b => acc ++ hexByte b) ""

/-- `DbValue::column_result` from `src/main.rs`: decode one cell into JSON.
`lossy` stands for `String::from_utf8_lossy` (library code, passed in).
The Rust function returns `FromSqlResult<DbValue>`; it only ever builds
`Ok(...)`, which the totality theorem makes precise. -/
def column_result (lossy : List Nat → String) : SqlValue → Except Unit Json
  | .blob bs => .ok (.str (hexEncode bs))
  | .real f =>
      .ok (if f.isFinite then .numFloat f else .str f.render)
  | .integer i => .ok (.numInt i)
  | .text bs => .ok (.str (lossy bs))
  | .null => .ok .null

/-- Whether `c` is a lowercase hexadecimal digit. -/
def isLowerHexDigit (c : Char) : Bool :=
  ('0' ≤ c && c ≤ '9') || ('a' ≤ c && c ≤ 'f')

lemma digitChar_isLowerHex {n : Nat} (h : n < 16) :
    isLowerHexDigit (Nat.digitChar n) = true := by
  interval_cases n <;> decide

lemma hexByte_length {b : Nat} : (hexByte b).length = 2 := rfl

lemma hexByte_chars {b : Nat} (hb : b < 256) :
    ∀ c ∈ (hexByte b).data, isLowerHexDigit c = true := by
  intro c hc
  have h1 : b / 16 < 16 := Nat.div_lt_of_lt_mul (by omega)
  have h2 : b % 16 < 16 := Nat.mod_lt _ (by omega)
  have hor : c = Nat.digitChar (b / 16) ∨ c = Nat.digitChar (b % 16) := by
    simpa [hexByte] using hc
  rcases hor with h | h
  · exact h ▸ digitChar_isLowerHex h1
  · exact h ▸ digitChar_isLowerHex h2

lemma hexEncode_go (s : String) (bs : List Nat) :
    bs.foldl (fun acc b => acc ++ hexByte b) s = s ++ hexEncode bs := by
  induction bs generalizing s with
  | nil => simp [hexEncode]
  | cons b bs ih =>
      have h1 : (b :: bs).foldl (fun acc b => acc ++ hexByte b) s
          = bs.foldl (fun acc b => acc ++ hexByte b) (s ++ hexByte b) := rfl
      have h2 : hexEncode (b :: bs)
          = bs.foldl (fun acc b => acc ++ hexByte b) ("" ++ hexByte b) := rfl
      rw [h1, h2, ih (s ++ hexByte b), ih ("" ++ hexByte b)]
      rw [String.empty_append]
      rw [String.append_assoc]

lemma hexEncode_cons (b : Nat) (bs : List Nat) :
    hexEncode (b :: bs) = hexByte b ++ hexEncode bs := by
  have h : hexEncode (b :: bs)
      = bs.foldl (fun acc b => acc ++ hexByte b) ("" ++ hexByte b) := rfl
  rw [h, hexEncode_go, String.empty_append]

lemma hexEncode_length (bs : List Nat) :
    (hexEncode bs).length = 2 * bs.length := by
  induction bs with
  | nil => rfl
  | cons b bs ih =>
      rw [hexEncode_cons, String.length_append, hexByte_length, ih]
      simp only [List.length_cons]
      ring

lemma hexEncode_chars (bs : List Nat) (hb : ∀ b ∈ bs, b < 256) :
    ∀ c ∈ (hexEncode bs).data, isLowerHexDigit c = true := by
  induction bs with
  | nil => intro c hc; cases hc
  | cons b bs ih =>
      intro c hc
      rw [hexEncode_cons] at hc
      rw [String.data_append] at hc
      rcases List.mem_append.mp hc with h | h
      · exact hexByte_chars (hb b (by simp)) c h
      · exact ih (fun x hx => hb x (by simp [hx])) c h

/-! ## Mirror store and transactional replace -/

/-- A row of the `versions` table, as decoded from the upstream response
(`VersionsEntry` in `fetch_and_load_data`). `u64` fields are `Nat`. -/
structure VersionsEntry where
  id : Nat
  game_version_type_id : Nat
  name : String
  slug : String
deriving DecidableEq, Repr

/-- A row of the `versionTypes` table (`VersionTypeEntry`). -/
structure VersionTypeEntry where
  id : Nat
  name : String
  slug : String
deriving DecidableEq, Repr

/-- The contents of `db.sqlite`: the two mirrored tables, in row order. -/
structure Store where
  versions : List VersionsEntry
  versionTypes : List VersionTypeEntry
deriving DecidableEq, Repr

/-- One SQL statement executed inside the replace transaction of
`fetch_and_load_data`, in source order: `DELETE FROM versions`, the
per-entry `INSERT INTO versions VALUES (?, ?, ?, ?)`, `DELETE FROM
versionTypes`, the per-entry `INSERT INTO versionTypes VALUES (?, ?, ?)`. -/
inductive TxStep where
  | deleteVersions : TxStep
  | insertVersion : VersionsEntry → TxStep
  | deleteVersionTypes : TxStep
  | insertVersionType : VersionTypeEntry → TxStep
deriving DecidableEq, Repr

/-- Effect of one statement on the in-transaction view of the store. -/
def applyStep (st : Store) : TxStep → Store
  | .deleteVersions => { st with versions := [] }
  | .insertVersion e => { st with versions := st.versions ++ [e] }
  | .deleteVersionTypes => { st with versionTypes := [] }
  | .insertVersionType e => { st with versionTypes := st.versionTypes ++ [e] }

/-- The exact statement sequence the transaction body of
`fetch_and_load_data` issues for fetched rows `vs` and `ts`. -/
def replaceAllSteps (vs : List VersionsEntry) (ts : List VersionTypeEntry) :
    List TxStep :=
  TxStep.deleteVersions :: vs.map TxStep.insertVersion
    ++ TxStep.deleteVersionTypes :: ts.map TxStep.insertVersionType

/-- Run the statements in order against the in-transaction view; `sf i`
says whether the `i`-th statement fails (e.g. a constraint violation or
I/O error). The first failing statement aborts the whole run (`?` in the
Rust code propagates it out of the transaction scope). -/
def runStepsFrom (sf : Nat → Bool) : Nat → Store → List TxStep → Option Store
  | _, st, [] => some st
  | i, st, s :: rest =>
      if sf i then none
      else runStepsFrom sf (i + 1) (applyStep st s) rest

/-- rusqlite transaction semantics, taken as a primitive of the model: the
statements run against a private view; `tx.commit()` publishes it, and a
failed statement or failed commit makes the `Transaction` guard roll back
on drop, leaving the database exactly as before the transaction. -/
def runTx (st : Store) (steps : List TxStep) (sf : Nat → Bool)
    (commitFails : Bool) : Except Unit Store :=
  match runStepsFrom sf 0 st steps with
  | none => .error ()
  | some st' => if commitFails then .error () else .ok st'

/-- The store another connection observes once the transaction has either
committed or rolled back: the new view on success, the untouched prior
store on any failure. -/
def txVisibleStore (st : Store) (steps : List TxStep) (sf : Nat → Bool)
    (commitFails : Bool) : Store :=
  match runTx st steps sf commitFails with
  | .error _ => st
  | .ok st' => st'

/-! ## Refresh coordinator (`DataFetcher`) -/

/-- The mutable state of `DataFetcher` that the claims concern: the store
behind its connection, and `last_ts` (an `Instant`, modelled as seconds on
a monotonic clock). The HTTP client and token carry no refresh state. -/
structure DataFetcher where
  store : Store
  last_ts : Nat
deriving DecidableEq, Repr

/-- `TIME_TO_REFRESH`: `Duration::from_secs(300)`. -/
def TIME_TO_REFRESH : Nat := 300

/-- Outcome of the upstream fetch: `fail` if either of the two GET
requests fails in transport or JSON decoding (`?` aborts before any state
change), or the two decoded row lists. -/
inductive FetchResult where
  | fail : FetchResult
  | ok : List VersionsEntry → List VersionTypeEntry → FetchResult
deriving DecidableEq, Repr

/-- `DataFetcher::fetch_and_load_data`. Environment inputs: the fetch
outcome, the value of `Instant::now()` taken right after the fetch
(`now2`, assigned to `self.last_ts` *before* the transaction runs), and
the transaction failure oracle. Since the method takes `&mut self`,
mutations made before a failure persist: the result is the post-state of
`self` paired with the returned `anyhow::Result`. -/
def fetch_and_load_data (f : DataFetcher) (fr : FetchResult) (now2 : Nat)
    (sf : Nat → Bool) (commitFails : Bool) : DataFetcher × Except Unit Unit :=
  match fr with
  | .fail => (f, .error ())
  | .ok vs ts =>
      match runTx f.store (replaceAllSteps vs ts) sf commitFails with
      | .error _ => ({ f with last_ts := now2 }, .error ())
      | .ok st => ({ store := st, last_ts := now2 }, .ok ())

/-- `DataFetcher::refresh`: `now` is `Instant::now()` at entry; the
elapsed `Duration` `now - last_ts` is compared against `TIME_TO_REFRESH`
(`Nat` subtraction agrees with `Instant` subtraction because the monotonic
clock gives `now ≥ last_ts`). Strictly greater triggers the fetch. -/
def DataFetcher.refresh (f : DataFetcher) (now : Nat) (fr : FetchResult)
    (now2 : Nat) (sf : Nat → Bool) (commitFails : Bool) :
    DataFetcher × Except Unit Unit :=
  if now - f.last_ts > TIME_TO_REFRESH then
    fetch_and_load_data f fr now2 sf commitFails
  else (f, .ok ())

/-- `update_db`: create the schema if absent (the tables' prior contents
are `initStore`), read `API_TOKEN` (absence aborts startup), build the
fetcher with `last_ts: Instant::now()` — the startup time, not a "never"
sentinel — then run one unconditional `fetch_and_load_data`, whose failure
propagates and aborts startup. -/
def update_db (initStore : Store) (apiToken : Option String) (startTime : Nat)
    (fr : FetchResult) (now2 : Nat) (sf : Nat → Bool) (commitFails : Bool) :
    Except Unit DataFetcher :=
  match apiToken with
  | none => .error ()
  | some _ =>
      match fetch_and_load_data ⟨initStore, startTime⟩ fr now2 sf commitFails with
      | (_, .error _) => .error ()
      | (f1, .ok _) => .ok f1

/-! ### Transaction lemmas -/

lemma runStepsFrom_some (sf : Nat → Bool) :
    ∀ (steps : List TxStep) (i : Nat) (st st' : Store),
      runStepsFrom sf i st steps = some st' → st' = steps.foldl applyStep st := by
  intro steps
  induction steps with
  | nil => intro i st st' h; simpa [runStepsFrom] using h.symm
  | cons s rest ih =>
      intro i st st' h
      simp only [runStepsFrom] at h
      split at h
      · exact absurd h (by simp)
      · rw [List.foldl_cons]
        exact ih (i + 1) (applyStep st s) st' h

lemma runStepsFrom_of_noFail (sf : Nat → Bool) :
    ∀ (steps : List TxStep) (i : Nat) (st : Store),
      (∀ j, j < steps.length → sf (i + j) = false) →
      runStepsFrom sf i st steps = some (steps.foldl applyStep st) := by
  intro steps
  induction steps with
  | nil => intro i st _; rfl
  | cons s rest ih =>
      intro i st h
      have h0 : sf i = false := by simpa using h 0 (by simp)
      simp only [runStepsFrom, h0, if_false, List.foldl_cons]
      exact ih (i + 1) (applyStep st s) (fun j hj => by
        have h2 := h (j + 1) (by simpa using Nat.succ_lt_succ hj)
        have heq : i + 1 + j = i + (j + 1) := by omega
        rw [heq]
        exact h2)

lemma foldl_insertVersion (st : Store) (vs : List VersionsEntry) :
    (vs.map TxStep.insertVersion).foldl applyStep st
      = { st with versions := st.versions ++ vs } := by
  induction vs generalizing st with
  | nil => simp
  | cons v vs ih =>
      simp only [List.map_cons, List.foldl_cons, applyStep]
      rw [ih]
      simp

lemma foldl_insertVersionType (st : Store) (ts : List VersionTypeEntry) :
    (ts.map TxStep.insertVersionType).foldl applyStep st
      = { st with versionTypes := st.versionTypes ++ ts } := by
  induction ts generalizing st with
  | nil => simp
  | cons t ts ih =>
      simp only [List.map_cons, List.foldl_cons, applyStep]
      rw [ih]
      simp

lemma foldl_replaceAllSteps (st : Store) (vs : List VersionsEntry)
    (ts : List VersionTypeEntry) :
    (replaceAllSteps vs ts).foldl applyStep st = ⟨vs, ts⟩ := by
  simp only [replaceAllSteps, List.foldl_cons, List.foldl_append]
  rw [show applyStep st .deleteVersions = { st with versions := [] } from rfl,
      foldl_insertVersion]
  simp only [List.foldl_cons]
  rw [show applyStep { st with versions := [] ++ vs, versionTypes := st.versionTypes }
        .deleteVersionTypes
      = { versions := [] ++ vs, versionTypes := [] } from rfl,
      foldl_insertVersionType]
  simp

lemma runTx_ok (st st' : Store) (steps : List TxStep) (sf : Nat → Bool)
    (cf : Bool) (h : runTx st steps sf cf = .ok st') :
    st' = steps.foldl applyStep st := by
  unfold runTx at h
  rcases heq : runStepsFrom sf 0 st steps with _ | st2 <;> rw [heq] at h
  · simp at h
  · cases cf with
    | true => simp at h
    | false =>
        simp at h
        subst h
        exact runStepsFrom_some sf steps 0 st st2 heq

lemma runTx_of_noFail (st : Store) (steps : List TxStep) (sf : Nat → Bool)
    (hsf : ∀ j, j < steps.length → sf j = false) :
    runTx st steps sf false = .ok (steps.foldl applyStep st) := by
  simp only [runTx, runStepsFrom_of_noFail sf steps 0 st (by simpa using hsf)]
  rfl

/-! ## Query bridge (`perform_query`) -/

/-- The payload `DbValue::column_result` wraps in `Ok`, case by case. -/
def cellJson (lossy : List Nat → String) : SqlValue → Json
  | .blob bs => .str (hexEncode bs)
  | .real fl => if fl.isFinite then .numFloat fl else .str fl.render
  | .integer i => .numInt i
  | .text bs => .str (lossy bs)
  | .null => .null

lemma column_result_eq (lossy : List Nat → String) (v : SqlValue) :
    column_result lossy v = .ok (cellJson lossy v) := by
  cases v <;> rfl

/-- Key membership in a row object. -/
def keyMem (k : String) : List (String × Json) → Bool
  | [] => false
  | p :: rest => if p.1 = k then true else keyMem k rest

/-- Value under key `k` in a row object (first occurrence; the built
object has distinct keys). -/
def objLookup (k : String) : List (String × Json) → Option Json
  | [] => none
  | p :: rest => if p.1 = k then some p.2 else objLookup k rest

/-- Cell of the last occurrence of column name `k` among the column/cell
pairs of one row. -/
def lastCell (k : String) : List (String × SqlValue) → Option SqlValue
  | [] => none
  | p :: rest =>
      match lastCell k rest with
      | some v => some v
      | none => if p.1 = k then some p.2 else none

/-- `serde_json::Map` insertion as used by `row_json.extend([(name, elt)])`
with the `preserve_order` representation: an existing key keeps its
position and gets the new value; a new key is appended. Modelled from the
spec: the crate manifest is not in the sources, and the spec fixes
"insertion order = column order; duplicate column names overwrite earlier
entries, last wins". -/
def mapInsert (m : List (String × Json)) (k : String) (v : Json) :
    List (String × Json) :=
  if keyMem k m then
    m.map (fun p => if p.1 = k then (k, v) else p)
  else m ++ [(k, v)]

/-- The loop body of the `query_map` closure: for each column index/name
pair in statement order, `row.get(i)` decodes the cell (its `?` would
propagate a per-row error, but the codec always succeeds) and the pair is
inserted into the row object. -/
def buildRowGo (lossy : List Nat → String) :
    List (String × SqlValue) → List (String × Json) →
    Except Unit (List (String × Json))
  | [], m => .ok m
  | (name, cell) :: rest, m =>
      match column_result lossy cell with
      | .error e => .error e
      | .ok j => buildRowGo lossy rest (mapInsert m name j)

/-- One result row mapped to a JSON object: the columns `cols` (from
`stmt.column_names()`) are zipped with the row's cells (`row.get(i)` for
`i` in `0..cols.len()`; a row carries exactly one cell per column). -/
def buildRow (lossy : List Nat → String) (cols : List String)
    (cells : List SqlValue) : Except Unit Json :=
  (buildRowGo lossy (cols.zip cells) []).map Json.obj

/-- The pure value of the row object (used to state what `buildRow`
returns). -/
def rowObjGo (lossy : List Nat → String) (m : List (String × Json)) :
    List (String × SqlValue) → List (String × Json)
  | [] => m
  | (name, cell) :: rest =>
      rowObjGo lossy (mapInsert m name (cellJson lossy cell)) rest

lemma buildRowGo_eq (lossy : List Nat → String) :
    ∀ (pairs : List (String × SqlValue)) (m : List (String × Json)),
      buildRowGo lossy pairs m = .ok (rowObjGo lossy m pairs) := by
  intro pairs
  induction pairs with
  | nil => intro m; rfl
  | cons p rest ih =>
      intro m
      obtain ⟨name, cell⟩ := p
      simp only [buildRowGo, rowObjGo, column_result_eq]
      exact ih (mapInsert m name (cellJson lossy cell))

/-- `.collect::<Result<Vec<_>, _>>()` over the mapped rows: each element
is either an iteration error (`rusqlite` stepping the cursor) or a row of
cells, which the closure turns into an object; the first error aborts. -/
def collectRows (lossy : List Nat → String) (cols : List String) :
    List (Except Unit (List SqlValue)) → Except Unit (List Json)
  | [] => .ok []
  | r :: rest =>
      match r with
      | .error e => .error e
      | .ok cells =>
          match buildRow lossy cols cells with
          | .error e => .error e
          | .ok j =>
              match collectRows lossy cols rest with
              | .error e => .error e
              | .ok js => .ok (j :: js)

/-- Outcome of `conn.prepare(&sql)`: an error (malformed SQL, unknown
table or column), or a prepared statement with its column names. -/
inductive PrepareResult where
  | fail : PrepareResult
  | ok : List String → PrepareResult
deriving Repr

/-- Outcome of `stmt.query_map(params, ...)` and the subsequent cursor:
binding itself may fail, otherwise each row is an iteration error or its
cells. -/
inductive RowsResult where
  | bindFail : RowsResult
  | rows : List (Except Unit (List SqlValue)) → RowsResult

/-- What `perform_query` hands the HTTP layer: a `web::Json` body
(status 200), or a `WrappedError` whose status is 400
(`WrappedError::user`) or 500 (`WrappedError::internal`). -/
inductive HttpResult where
  | ok : Json → HttpResult
  | err : Nat → HttpResult

/-- `perform_query`: lock the fetcher and run `refresh` (its error becomes
`internal`, 500); open the read-only connection (`internal`); prepare the
caller's SQL (`user`, 400); run `query_map` and collect the rows (`user`,
400); on success answer with the JSON array. Returns the post-state of the
fetcher and the HTTP outcome. -/
def perform_query (f : DataFetcher) (now : Nat) (fr : FetchResult)
    (now2 : Nat) (sf : Nat → Bool) (cf : Bool) (openOk : Bool)
    (prep : PrepareResult) (rowsRes : RowsResult)
    (lossy : List Nat → String) : DataFetcher × HttpResult :=
  match DataFetcher.refresh f now fr now2 sf cf with
  | (f1, .error _) => (f1, .err 500)
  | (f1, .ok _) =>
      if !openOk then (f1, .err 500)
      else
        match prep with
        | .fail => (f1, .err 400)
        | .ok cols =>
            match rowsRes with
            | .bindFail => (f1, .err 400)
            | .rows rs =>
                match collectRows lossy cols rs with
                | .error _ => (f1, .err 400)
                | .ok js => (f1, .ok (.arr js))

/-! ## Lock discipline of `perform_query` -/

/-- The events of one `perform_query` call, in program order. -/
inductive Action where
  | lockAcquire : Action
  | refreshStep : Action
  | lockRelease : Action
  | openConn : Action
  | prepareStmt : Action
  | runRows : Action
  | respond : Action
deriving DecidableEq, Repr

/-- Program order of `perform_query`. The `MutexGuard` produced by
`fetcher.lock().await` is a temporary of the statement
`fetcher.lock().await.refresh().await.map_err(...)?;` and Rust drops it at
that statement's end — so `lockRelease` happens before
`Connection::open_with_flags`, the `prepare`, and the row iteration. -/
def performQueryActions : List Action :=
  [.lockAcquire, .refreshStep, .lockRelease, .openConn, .prepareStmt,
   .runRows, .respond]

/-- Mark each event with whether the mutex is held while it executes. -/
def markHeld (held : Bool) : List Action → List (Action × Bool)
  | [] => []
  | a :: rest =>
      match a with
      | .lockAcquire => (a, true) :: markHeld true rest
      | .lockRelease => (a, false) :: markHeld false rest
      | _ => (a, held) :: markHeld held rest

/-- Whether the mutex is held while `a` executes in `perform_query`. -/
def lockHeldDuring (a : Action) : Bool :=
  match (markHeld false performQueryActions).find? (fun p => p.1 == a) with
  | some p => p.2
  | none => false

/-! ## Upstream response decoding -/

/-- First field of the object accepted under one of `names`, read as a
`u64` (serde rejects negative numbers for `u64`). -/
def getU64 (fields : List (String × Json)) (names : List String) :
    Option Nat :=
  match fields.find? (fun p => names.contains p.1) with
  | some (_, .numInt i) => if 0 ≤ i then some i.toNat else none
  | _ => none

/-- First field of the object accepted under one of `names`, read as a
string. -/
def getStr (fields : List (String × Json)) (names : List String) :
    Option String :=
  match fields.find? (fun p => names.contains p.1) with
  | some (_, .str s) => some s
  | _ => none

/-- serde-derived decoding of one `VersionsEntry` object from the upstream
versions response, restricted to field resolution: each struct field is
read under its accepted names, and `game_version_type_id` carries
`#[serde(alias = "gameVersionTypeID")]`, so the input may use either key
for that one attribute. -/
def decodeVersionsEntry (fields : List (String × Json)) :
    Option VersionsEntry := do
  let id ← getU64 fields ["id"]
  let gvti ← getU64 fields ["game_version_type_id", "gameVersionTypeID"]
  let name ← getStr fields ["name"]
  let slug ← getStr fields ["slug"]
  some ⟨id, gvti, name, slug⟩

/-! ## Port configuration -/

/-- `str::parse::<u16>()`: an optional leading `+`, then at least one
ASCII digit, and the value must fit in 16 bits. -/
def parseU16 (s : String) : Option Nat :=
  let digits :=
    match s.data with
    | '+' :: rest => rest
    | cs => cs
  if digits.isEmpty then none
  else if digits.all (fun c => c.isDigit) then
    let n := digits.foldl (fun acc c => acc * 10 + (c.toNat - 48)) 0
    if n < 65536 then some n else none
  else none

/-- The port computation in `main`:
`std::env::var("PORT").map(|s| s.parse::<u16>()).ok().unwrap_or(Ok(8080))?`.
`env` is the variable's value when set. The outer `.ok()` discards only
the *environment* error (variable absent), so an inner parse error
survives `.unwrap_or` and `?` aborts startup with it. -/
def portFromEnv (env : Option String) : Except Unit Nat :=
  match env.map parseU16 with
  | none => .ok 8080
  | some none => .error ()
  | some (some n) => .ok n

/-! ## Refresh lemmas shared by several claims -/

lemma refresh_of_fresh (f : DataFetcher) (now : Nat) (fr : FetchResult)
    (now2 : Nat) (sf : Nat → Bool) (cf : Bool)
    (h : now - f.last_ts ≤ TIME_TO_REFRESH) :
    DataFetcher.refresh f now fr now2 sf cf = (f, .ok ()) := by
  unfold DataFetcher.refresh
  rw [if_neg (by omega)]

lemma refresh_of_stale (f : DataFetcher) (now : Nat) (fr : FetchResult)
    (now2 : Nat) (sf : Nat → Bool) (cf : Bool)
    (h : now - f.last_ts > TIME_TO_REFRESH) :
    DataFetcher.refresh f now fr now2 sf cf
      = fetch_and_load_data f fr now2 sf cf := by
  unfold DataFetcher.refresh
  rw [if_pos h]

/-! ## Claim theorems -/

/-- C3: `maybe_refresh` (`DataFetcher::refresh`) is an idempotent no-op —
no upstream fetch and no store write, the fetcher is returned unchanged
with `Ok(())` — whenever the age of the last refresh is at most the TTL of
300 seconds, and runs exactly the fetch-then-replace sequence
(`fetch_and_load_data`) when the age strictly exceeds 300 seconds. -/
theorem C3_ttl_gating (f : DataFetcher) (now : Nat) (fr : FetchResult)
    (now2 : Nat) (sf : Nat → Bool) (cf : Bool) :
    TIME_TO_REFRESH = 300 ∧
    (now - f.last_ts ≤ 300 →
      DataFetcher.refresh f now fr now2 sf cf = (f, .ok ())) ∧
    (now - f.last_ts > 300 →
      DataFetcher.refresh f now fr now2 sf cf
        = fetch_and_load_data f fr now2 sf cf) :=
  ⟨rfl,
   fun h => refresh_of_fresh f now fr now2 sf cf h,
   fun h => refresh_of_stale f now fr now2 sf cf h⟩

/-- C3 witness: a fetcher last refreshed at time 0, queried at time 100,
is returned untouched with no fetch attempted. -/
theorem C3_ttl_gating_witness :
    DataFetcher.refresh ⟨⟨[], []⟩, 0⟩ 100 .fail 0 (fun _ => false) false
      = (⟨⟨[], []⟩, 0⟩, .ok ()) :=
  (C3_ttl_gating ⟨⟨[], []⟩, 0⟩ 100 .fail 0 (fun _ => false) false).2.1
    (by decide)

/-- C6: the row codec is total — `column_result` always returns `Ok` —
and follows the fixed coercion rules: a blob becomes a lowercase hex
string with exactly two hex digits per byte and no separators (the empty
blob gives `""`), a float becomes a JSON number when finite (the exact
condition of `serde_json::Number::from_f64`) and otherwise its default
rendering as a JSON string, an integer becomes a JSON number, text becomes
a JSON string through the lossy UTF-8 decoder, and SQL NULL becomes JSON
null. -/
theorem C6_codec_total_and_rules (lossy : List Nat → String) (v : SqlValue)
    (bs : List Nat) (hb : ∀ b ∈ bs, b < 256) (fl : F64) (i : Int)
    (ts : List Nat) :
    (column_result lossy v).isOk = true ∧
    column_result lossy (.blob bs) = .ok (.str (hexEncode bs)) ∧
    (hexEncode bs).length = 2 * bs.length ∧
    (∀ c ∈ (hexEncode bs).data, isLowerHexDigit c = true) ∧
    hexEncode [] = "" ∧
    column_result lossy (.real fl)
      = .ok (if fl.isFinite then .numFloat fl else .str fl.render) ∧
    column_result lossy (.integer i) = .ok (.numInt i) ∧
    column_result lossy (.text ts) = .ok (.str (lossy ts)) ∧
    column_result lossy SqlValue.null = .ok .null := by
  refine ⟨?_, rfl, hexEncode_length bs, hexEncode_chars bs hb, rfl, rfl,
    rfl, rfl, rfl⟩
  rw [column_result_eq]
  rfl

/-- C6 witness: the codec rules evaluated at the blob `[0x00, 0xff]`, a
finite float, the integer `-3`, the text byte `0x68` and NULL. -/
theorem C6_codec_witness :
    (column_result (fun _ => "") SqlValue.null).isOk = true ∧
    column_result (fun _ => "") (.blob [0, 255])
      = .ok (.str (hexEncode [0, 255])) ∧
    (hexEncode [0, 255]).length = 2 * ([0, 255] : List Nat).length ∧
    (∀ c ∈ (hexEncode [0, 255]).data, isLowerHexDigit c = true) ∧
    hexEncode [] = "" ∧
    column_result (fun _ => "") (.real ⟨true, "1.5"⟩)
      = .ok (if (⟨true, "1.5"⟩ : F64).isFinite then .numFloat ⟨true, "1.5"⟩
             else .str (F64.render ⟨true, "1.5"⟩)) ∧
    column_result (fun _ => "") (.integer (-3)) = .ok (.numInt (-3)) ∧
    column_result (fun _ => "") (.text [104])
      = .ok (.str ((fun _ => "") [104])) ∧
    column_result (fun _ => "") SqlValue.null = .ok .null :=
  C6_codec_total_and_rules (fun _ => "") .null [0, 255] (by decide)
    ⟨true, "1.5"⟩ (-3) [104]

/-- C10: if `PORT` is set but does not parse as a `u16`, startup fails
(`?` propagates the parse error out of `main`) instead of falling back;
the default 8080 is used exactly when the variable is absent. -/
theorem C10_port_env (s : String) :
    portFromEnv none = .ok 8080 ∧
    (parseU16 s = none → portFromEnv (some s) = .error ()) ∧
    (∀ n, parseU16 s = some n → portFromEnv (some s) = .ok n) := by
  refine ⟨rfl, ?_, ?_⟩
  · intro h
    simp [portFromEnv, h]
  · intro n h
    simp [portFromEnv, h]

/-- C10 witness: `PORT=abc` aborts startup; `PORT=9090` binds 9090. -/
theorem C10_port_env_witness :
    portFromEnv (some "abc") = .error () ∧
    portFromEnv (some "9090") = .ok 9090 :=
  ⟨(C10_port_env "abc").2.1 (by decide),
   (C10_port_env "9090").2.2 9090 (by decide)⟩

/-- C9: decoding an upstream versions entry accepts the version-type
reference under either the snake_case name `game_version_type_id` or the
upstream camelCase alias `gameVersionTypeID`, and both keys populate the
same `game_version_type_id` attribute. -/
theorem C9_version_type_alias (i g : Nat) (n s : String) :
    decodeVersionsEntry
        [("id", .numInt i), ("game_version_type_id", .numInt g),
         ("name", .str n), ("slug", .str s)] = some ⟨i, g, n, s⟩ ∧
    decodeVersionsEntry
        [("id", .numInt i), ("gameVersionTypeID", .numInt g),
         ("name", .str n), ("slug", .str s)] = some ⟨i, g, n, s⟩ := by
  constructor <;>
    simp [decodeVersionsEntry, getU64, getStr, List.find?, List.contains,
      Int.toNat_natCast, Int.natCast_nonneg]

/-- C4 counterexample: the mutex is *not* held across the SQL execution
and response: the `MutexGuard` is a temporary of the refresh statement and
is dropped at its end, so the claim that one lock covers `maybe_refresh`
and the subsequent query until the response is ready fails at the
`runRows` (and `respond`) events. -/
theorem C4_counterexample :
    ¬ (lockHeldDuring .refreshStep = true ∧
       lockHeldDuring .runRows = true ∧
       lockHeldDuring .respond = true) := by
  decide

/-- C4 amended: the lock is acquired at the start of handling and held
across exactly the `maybe_refresh` step; it is released when that
statement ends, before the read-only connection is opened, the SQL is
prepared, the rows run, and the response is produced. -/
theorem C4_lock_scope :
    lockHeldDuring .lockAcquire = true ∧
    lockHeldDuring .refreshStep = true ∧
    lockHeldDuring .openConn = false ∧
    lockHeldDuring .prepareStmt = false ∧
    lockHeldDuring .runRows = false ∧
    lockHeldDuring .respond = false := by
  decide

/-- C1 counterexample: the claim "every failing refresh attempt leaves the
last-refresh timestamp unchanged and the mirror unchanged" is false:
`fetch_and_load_data` assigns `self.last_ts = Instant::now()` *before* the
database transaction, so when the fetch succeeds and the replace fails the
attempt returns an error with the timestamp already advanced (here from 0
to 400, while the mirror stays empty). -/
theorem C1_counterexample :
    ¬ (∀ (f : DataFetcher) (now : Nat) (fr : FetchResult) (now2 : Nat)
         (sf : Nat → Bool) (cf : Bool),
         (DataFetcher.refresh f now fr now2 sf cf).2 = .error () →
         (DataFetcher.refresh f now fr now2 sf cf).1.last_ts = f.last_ts ∧
         (DataFetcher.refresh f now fr now2 sf cf).1.store = f.store) := by
  intro h
  have h2 := h ⟨⟨[], []⟩, 0⟩ 301 (.ok [⟨1, 2, "a", "b"⟩] []) 400
      (fun _ => false) true rfl
  exact absurd h2.1 (by decide)

/-- C1 amended: on a failing refresh attempt the mirror contents are
always left unchanged (the transaction rolls back), and the timestamp is
left unchanged when the upstream *fetch* fails — but when the fetch
succeeds and the *replace* fails, the timestamp has already been advanced
to the post-fetch instant, so the next query within the TTL will not
retry. -/
theorem C1_failed_refresh (f : DataFetcher) (now : Nat) (fr : FetchResult)
    (now2 : Nat) (sf : Nat → Bool) (cf : Bool)
    (herr : (DataFetcher.refresh f now fr now2 sf cf).2 = .error ()) :
    (DataFetcher.refresh f now fr now2 sf cf).1.store = f.store ∧
    (fr = .fail →
      (DataFetcher.refresh f now fr now2 sf cf).1.last_ts = f.last_ts) ∧
    (∀ vs ts, fr = .ok vs ts →
      (DataFetcher.refresh f now fr now2 sf cf).1.last_ts = now2) := by
  by_cases hc : now - f.last_ts > TIME_TO_REFRESH
  · rw [refresh_of_stale f now fr now2 sf cf hc] at herr ⊢
    cases fr with
    | fail =>
        exact ⟨rfl, fun _ => rfl, fun vs ts h => by cases h⟩
    | ok vs ts =>
        rcases htx : runTx f.store (replaceAllSteps vs ts) sf cf with e | st
        · simp [fetch_and_load_data, htx]
        · simp [fetch_and_load_data, htx] at herr
  · rw [refresh_of_fresh f now fr now2 sf cf (by omega)] at herr
    simp at herr

/-- C1 witness: a refresh whose upstream fetch fails reports the error and
leaves both the mirror and the timestamp untouched. -/
theorem C1_failed_refresh_witness :
    (DataFetcher.refresh ⟨⟨[], []⟩, 0⟩ 301 .fail 400 (fun _ => false)
        false).1.store = (⟨⟨[], []⟩, 0⟩ : DataFetcher).store ∧
    (DataFetcher.refresh ⟨⟨[], []⟩, 0⟩ 301 .fail 400 (fun _ => false)
        false).1.last_ts = (⟨⟨[], []⟩, 0⟩ : DataFetcher).last_ts :=
  ⟨(C1_failed_refresh ⟨⟨[], []⟩, 0⟩ 301 .fail 400 (fun _ => false) false
      rfl).1,
   (C1_failed_refresh ⟨⟨[], []⟩, 0⟩ 301 .fail 400 (fun _ => false) false
      rfl).2.1 rfl⟩

/-- C2: the replace transaction issues delete-all then the inserts for
both tables as one unit: any other connection observes either the
complete prior snapshot (any step or the commit failed — rollback) or the
complete new snapshot, never a mix; `Ok` is possible only with the new
snapshot in full; and when every statement and the commit succeed, the
result is exactly the new snapshot. -/
theorem C2_replace_all_atomic (st : Store) (vs : List VersionsEntry)
    (ts : List VersionTypeEntry) (sf : Nat → Bool) (cf : Bool) :
    (txVisibleStore st (replaceAllSteps vs ts) sf cf = st ∨
     txVisibleStore st (replaceAllSteps vs ts) sf cf = ⟨vs, ts⟩) ∧
    (∀ st', runTx st (replaceAllSteps vs ts) sf cf = .ok st' →
      st' = ⟨vs, ts⟩) ∧
    ((∀ j, j < (replaceAllSteps vs ts).length → sf j = false) →
      runTx st (replaceAllSteps vs ts) sf false = .ok ⟨vs, ts⟩) := by
  refine ⟨?_, ?_, ?_⟩
  · unfold txVisibleStore
    rcases htx : runTx st (replaceAllSteps vs ts) sf cf with e | st'
    · left; rfl
    · right
      show st' = (⟨vs, ts⟩ : Store)
      rw [runTx_ok st st' _ sf cf htx, foldl_replaceAllSteps]
  · intro st' h
    rw [runTx_ok st st' _ sf cf h, foldl_replaceAllSteps]
  · intro h
    rw [runTx_of_noFail st _ sf h, foldl_replaceAllSteps]

/-- C2 witness: replacing a one-row prior snapshot with a new snapshot of
one version and one version type commits exactly the new snapshot. -/
theorem C2_replace_all_atomic_witness :
    runTx ⟨[⟨9, 9, "old", "old"⟩], []⟩
        (replaceAllSteps [⟨1, 2, "a", "b"⟩] [⟨3, "c", "d"⟩])
        (fun _ => false) false
      = .ok ⟨[⟨1, 2, "a", "b"⟩], [⟨3, "c", "d"⟩]⟩ :=
  (C2_replace_all_atomic ⟨[⟨9, 9, "old", "old"⟩], []⟩ [⟨1, 2, "a", "b"⟩]
      [⟨3, "c", "d"⟩] (fun _ => false) false).2.2 (fun _ _ => rfl)

/-- C7 counterexample: the timestamp is *not* reset to "never" at process
start — `DataFetcher` is constructed with `last_ts: Instant::now()` and
`update_db` immediately runs the forced startup fetch, which stamps the
fetch time. Consequently the first call to `refresh` after startup (at age
95s here) is a pure no-op: it succeeds without touching state even though
the upstream would fail — so no fetch is triggered by it. -/
theorem C7_counterexample :
    update_db ⟨[], []⟩ (some "tok") 1000 (.ok [] []) 1005 (fun _ => false)
        false = .ok ⟨⟨[], []⟩, 1005⟩ ∧
    DataFetcher.refresh ⟨⟨[], []⟩, 1005⟩ 1100 .fail 0 (fun _ => false) false
      = (⟨⟨[], []⟩, 1005⟩, .ok ()) :=
  ⟨rfl, rfl⟩

/-- C7 amended: the first fetch is forced unconditionally by `update_db`
at startup (before serving; a startup fetch failure aborts the process),
and a successful startup leaves `last_ts` equal to the startup fetch time
— so the first `refresh` within the TTL of startup is a no-op rather than
a guaranteed fetch. -/
theorem C7_startup_refresh (initStore : Store) (tok : String)
    (startTime : Nat) (fr : FetchResult) (now2 : Nat) (sf : Nat → Bool)
    (cf : Bool) :
    (fr = .fail →
      update_db initStore (some tok) startTime fr now2 sf cf = .error ()) ∧
    (∀ f, update_db initStore (some tok) startTime fr now2 sf cf = .ok f →
      f.last_ts = now2 ∧
      ∀ now fr' now2' sf' cf', now - now2 ≤ TIME_TO_REFRESH →
        DataFetcher.refresh f now fr' now2' sf' cf' = (f, .ok ())) := by
  constructor
  · intro h
    subst h
    rfl
  · intro f hok
    cases fr with
    | fail => simp [update_db, fetch_and_load_data] at hok
    | ok vs ts =>
        simp only [update_db, fetch_and_load_data] at hok
        rcases htx : runTx initStore (replaceAllSteps vs ts) sf cf
          with e | st <;> rw [htx] at hok
        · simp at hok
        · simp at hok
          subst hok
          refine ⟨rfl, ?_⟩
          intro now fr' now2' sf' cf' hfresh
          exact refresh_of_fresh _ now fr' now2' sf' cf' hfresh

/-- C7 witness: a successful startup at time 1000 whose fetch stamps time
1005 yields a fetcher whose first refresh at time 1100 is a no-op. -/
theorem C7_startup_refresh_witness :
    (⟨⟨[], []⟩, 1005⟩ : DataFetcher).last_ts = 1005 ∧
    DataFetcher.refresh ⟨⟨[], []⟩, 1005⟩ 1200 .fail 0 (fun _ => false) false
      = (⟨⟨[], []⟩, 1005⟩, .ok ()) :=
  ⟨((C7_startup_refresh ⟨[], []⟩ "tok" 1000 (.ok [] []) 1005 (fun _ => false)
      false).2 ⟨⟨[], []⟩, 1005⟩ rfl).1,
   ((C7_startup_refresh ⟨[], []⟩ "tok" 1000 (.ok [] []) 1005 (fun _ => false)
      false).2 ⟨⟨[], []⟩, 1005⟩ rfl).2 1200 .fail 0 (fun _ => false) false
     (by decide)⟩

/-- C5: `perform_query` classifies by origin: a refresh failure is
surfaced as an internal-class error (HTTP 500); a failure to prepare the
caller's SQL, or a failure while iterating the rows, is surfaced as a
caller-class error (HTTP 400); and on success the response is a JSON
array of the row objects (HTTP 200 via `web::Json`). -/
theorem C5_status_by_origin (f : DataFetcher) (now : Nat) (fr : FetchResult)
    (now2 : Nat) (sf : Nat → Bool) (cf : Bool) (openOk : Bool)
    (prep : PrepareResult) (rowsRes : RowsResult)
    (lossy : List Nat → String) :
    ((DataFetcher.refresh f now fr now2 sf cf).2 = .error () →
      (perform_query f now fr now2 sf cf openOk prep rowsRes lossy).2
        = .err 500) ∧
    ((DataFetcher.refresh f now fr now2 sf cf).2 = .ok () → openOk = true →
      prep = .fail →
      (perform_query f now fr now2 sf cf openOk prep rowsRes lossy).2
        = .err 400) ∧
    (∀ cols rs, (DataFetcher.refresh f now fr now2 sf cf).2 = .ok () →
      openOk = true → prep = .ok cols → rowsRes = .rows rs →
      (collectRows lossy cols rs).isOk = false →
      (perform_query f now fr now2 sf cf openOk prep rowsRes lossy).2
        = .err 400) ∧
    (∀ cols rs js, (DataFetcher.refresh f now fr now2 sf cf).2 = .ok () →
      openOk = true → prep = .ok cols → rowsRes = .rows rs →
      collectRows lossy cols rs = .ok js →
      (perform_query f now fr now2 sf cf openOk prep rowsRes lossy).2
        = .ok (.arr js)) := by
  rcases hr : DataFetcher.refresh f now fr now2 sf cf with ⟨f1, res⟩
  refine ⟨?_, ?_, ?_, ?_⟩
  · intro herr
    simp only at herr
    subst herr
    simp [perform_query, hr]
  · intro hok hopen hprep
    simp only at hok
    subst hok
    subst hopen
    subst hprep
    simp [perform_query, hr]
  · intro cols rs hok hopen hprep hrows hcoll
    simp only at hok
    subst hok
    subst hopen
    subst hprep
    subst hrows
    rcases hc : collectRows lossy cols rs with e | js
    · simp [perform_query, hr, hc]
    · rw [hc] at hcoll
      simp [Except.isOk, Except.toBool] at hcoll
  · intro cols rs js hok hopen hprep hrows hcoll
    simp only at hok
    subst hok
    subst hopen
    subst hprep
    subst hrows
    simp [perform_query, hr, hcoll]

/-- C5 witness: with a fresh mirror and the query `SELECT`-ing one integer
column `a`, the response is the JSON array `[{"a": 5}]`. -/
theorem C5_status_by_origin_witness :
    (perform_query ⟨⟨[], []⟩, 0⟩ 100 .fail 0 (fun _ => false) false true
        (.ok ["a"]) (.rows [.ok [.integer 5]]) (fun _ => "")).2
      = .ok (.arr [.obj [("a", .numInt 5)]]) :=
  (C5_status_by_origin ⟨⟨[], []⟩, 0⟩ 100 .fail 0 (fun _ => false) false true
      (.ok ["a"]) (.rows [.ok [.integer 5]]) (fun _ => "")).2.2.2 ["a"]
    [.ok [.integer 5]] [.obj [("a", .numInt 5)]] rfl rfl rfl rfl rfl

/-! ### Row-object lemmas for C8 -/

lemma objLookup_map_update (k k' : String) (v : Json) :
    ∀ (m : List (String × Json)),
      objLookup k' (m.map (fun p => if p.1 = k then (k, v) else p))
        = if k' = k then (if keyMem k m then some v else objLookup k' m)
          else objLookup k' m := by
  intro m
  induction m with
  | nil => by_cases h : k' = k <;> simp [objLookup, keyMem, h]
  | cons p rest ih =>
      obtain ⟨pk, pv⟩ := p
      by_cases hpk : pk = k
      · subst hpk
        by_cases hk' : k' = pk
        · simp [objLookup, keyMem, hk']
        · have hpk' : ¬ pk = k' := fun h => hk' h.symm
          simp [objLookup, keyMem, hk', hpk', ih]
      · by_cases hk'pk : k' = pk
        · have hk'k : ¬ k' = k := fun h => hpk (hk'pk ▸ h)
          have hpkk' : pk = k' := hk'pk.symm
          simp [objLookup, keyMem, hpk, hpkk', hk'k]
        · have hpkk' : ¬ pk = k' := fun h => hk'pk h.symm
          simp [objLookup, keyMem, hpk, hpkk', hk'pk, ih]

lemma objLookup_append_single (k k' : String) (v : Json)
    (m : List (String × Json)) :
    objLookup k' (m ++ [(k, v)])
      = match objLookup k' m with
        | some w => some w
        | none => if k' = k then some v else none := by
  induction m with
  | nil =>
      by_cases h : k' = k
      · simp [objLookup, h]
      · have h' : ¬ k = k' := fun hh => h hh.symm
        simp [objLookup, h, h']
  | cons p rest ih =>
      obtain ⟨pk, pv⟩ := p
      by_cases h : pk = k'
      · simp [objLookup, h]
      · simp [objLookup, h, ih]

lemma objLookup_none_of_keyMem_false (k : String)
    (m : List (String × Json)) (h : keyMem k m = false) :
    objLookup k m = none := by
  induction m with
  | nil => rfl
  | cons p rest ih =>
      obtain ⟨pk, pv⟩ := p
      by_cases hpk : pk = k
      · simp [keyMem, hpk] at h
      · simp only [keyMem, if_neg hpk] at h
        simp [objLookup, hpk, ih h]

lemma objLookup_mapInsert (m : List (String × Json)) (k k' : String)
    (v : Json) :
    objLookup k' (mapInsert m k v)
      = if k' = k then some v else objLookup k' m := by
  unfold mapInsert
  by_cases hmem : keyMem k m = true
  · rw [if_pos hmem, objLookup_map_update, hmem]
    simp
  · have hmem' : keyMem k m = false := by simpa using hmem
    rw [if_neg (by simp [hmem']), objLookup_append_single]
    by_cases hk' : k' = k
    · subst hk'
      rw [objLookup_none_of_keyMem_false k' m hmem']
    · rcases hlk : objLookup k' m with _ | w
      · simp [hk']
      · simp [hk']

/-- Value found at key `k` after building the row object: the last
column occurrence wins. -/
lemma rowObjGo_lookup (lossy : List Nat → String) :
    ∀ (pairs : List (String × SqlValue)) (m : List (String × Json))
      (k : String),
      objLookup k (rowObjGo lossy m pairs)
        = match lastCell k pairs with
          | some cell => some (cellJson lossy cell)
          | none => objLookup k m := by
  intro pairs
  induction pairs with
  | nil => intro m k; rfl
  | cons p rest ih =>
      intro m k
      obtain ⟨name, cell⟩ := p
      have hstep : rowObjGo lossy m ((name, cell) :: rest)
          = rowObjGo lossy (mapInsert m name (cellJson lossy cell)) rest :=
        rfl
      have hlast : lastCell k ((name, cell) :: rest)
          = match lastCell k rest with
            | some v => some v
            | none => if name = k then some cell else none := rfl
      rw [hstep, ih, hlast]
      rcases hl : lastCell k rest with _ | c
      · rw [objLookup_mapInsert]
        by_cases hk : name = k
        · rw [if_pos hk, if_pos hk.symm]
        · rw [if_neg hk, if_neg (fun h => hk h.symm)]
      · rfl

lemma keyMem_append (k : String) (m1 m2 : List (String × Json)) :
    keyMem k (m1 ++ m2) = (keyMem k m1 || keyMem k m2) := by
  induction m1 with
  | nil => simp [keyMem]
  | cons p rest ih =>
      by_cases h : p.1 = k
      · simp [keyMem, h]
      · simp [keyMem, h, ih]

/-- With pairwise-distinct fresh keys the row object is just the pairs in
order, each cell decoded by the codec. -/
lemma rowObjGo_of_fresh (lossy : List Nat → String) :
    ∀ (pairs : List (String × SqlValue)) (m : List (String × Json)),
      (pairs.map Prod.fst).Nodup →
      (∀ k, k ∈ pairs.map Prod.fst → keyMem k m = false) →
      rowObjGo lossy m pairs
        = m ++ pairs.map (fun p => (p.1, cellJson lossy p.2)) := by
  intro pairs
  induction pairs with
  | nil => intro m _ _; simp [rowObjGo]
  | cons p rest ih =>
      intro m hnd hfresh
      obtain ⟨name, cell⟩ := p
      have hmem : keyMem name m = false := hfresh name (by simp)
      have hins : mapInsert m name (cellJson lossy cell)
          = m ++ [(name, cellJson lossy cell)] := by
        unfold mapInsert
        rw [if_neg (by simp [hmem])]
      have hstep : rowObjGo lossy m ((name, cell) :: rest)
          = rowObjGo lossy (mapInsert m name (cellJson lossy cell)) rest :=
        rfl
      rw [hstep, hins, ih (m ++ [(name, cellJson lossy cell)])
        (by simpa using hnd.of_cons) ?fresh]
      · simp
      case fresh =>
        intro k hk
        rw [keyMem_append]
        have h1 : keyMem k m = false := hfresh k (by simp [hk])
        have h2 : ¬ name = k := by
          intro h
          subst h
          exact (List.nodup_cons.mp (by simpa using hnd)).1 hk
        simp [keyMem, h1, h2]

lemma map_fst_zip_sublist :
    ∀ (cols : List String) (cells : List SqlValue),
      ((cols.zip cells).map Prod.fst).Sublist cols
  | [], _ => by simp
  | _ :: _, [] => by simp
  | c :: cs, x :: xs => by
      simp only [List.zip_cons_cons, List.map_cons]
      exact (map_fst_zip_sublist cs xs).cons₂ c

/-- C8: each result row becomes the JSON object obtained by inserting
(column name, decoded cell) in statement column order: `buildRow` always
succeeds with that object; when the column names are distinct the object
lists exactly the columns in order with each cell decoded by the row
codec; and under duplicate column names the value stored at a name is the
decoded cell of its *last* occurrence. -/
theorem C8_row_object (lossy : List Nat → String) (cols : List String)
    (cells : List SqlValue) :
    buildRow lossy cols cells
      = .ok (.obj (rowObjGo lossy [] (cols.zip cells))) ∧
    (cols.Nodup →
      rowObjGo lossy [] (cols.zip cells)
        = (cols.zip cells).map (fun p => (p.1, cellJson lossy p.2))) ∧
    (∀ k, objLookup k (rowObjGo lossy [] (cols.zip cells))
        = match lastCell k (cols.zip cells) with
          | some cell => some (cellJson lossy cell)
          | none => none) := by
  refine ⟨?_, ?_, ?_⟩
  · unfold buildRow
    rw [buildRowGo_eq]
    rfl
  · intro hnod
    exact rowObjGo_of_fresh lossy (cols.zip cells) []
      (List.Nodup.sublist (map_fst_zip_sublist cols cells) hnod)
      (fun k _ => rfl)
  · intro k
    rw [rowObjGo_lookup]
    rcases lastCell k (cols.zip cells) with _ | c <;> rfl

/-- C8 witness: columns `["a", "b"]` with cells `1` and NULL produce the
object with exactly those keys in order and codec-decoded values. -/
theorem C8_row_object_witness :
    rowObjGo (fun _ => "") [] ((["a", "b"]).zip [SqlValue.integer 1, .null])
      = ((["a", "b"]).zip [SqlValue.integer 1, .null]).map
          (fun p => (p.1, cellJson (fun _ => "") p.2)) :=
  (C8_row_object (fun _ => "") ["a", "b"] [.integer 1, .null]).2.1
    (by decide)

end Cursemap
